import Mathlib

/-!
Verification of the release-suite version-computation engine.

The definitions below are a shallow embedding of the JavaScript sources
`src/lib/versioning.js`, `src/lib/git.js`, `src/lib/utils.js` and the
engine/CLI in `src/bin/create-tag.js` (the `computeVersion` / `main`
functions).  JavaScript strings are modelled as `String` / `List Char`,
JavaScript numbers appearing here are integers or `NaN` (represented with
`Option Int` where relevant), and `undefined` is modelled with `Option`.
-/

namespace ReleaseSuite

/-- ECMAScript whitespace (`\s` of a non-unicode regex, `String.prototype.trim`,
and the leading-whitespace skip of `parseInt`): WhiteSpace ∪ LineTerminator. -/
def jsWS (c : Char) : Bool :=
  c = ' ' || c = '\t' || c = '\n' || c = '\r' ||
  c.toNat = 0x0b || c.toNat = 0x0c ||
  c.toNat = 0xa0 || c.toNat = 0x1680 ||
  (0x2000 ≤ c.toNat && c.toNat ≤ 0x200a) ||
  c.toNat = 0x2028 || c.toNat = 0x2029 || c.toNat = 0x202f ||
  c.toNat = 0x205f || c.toNat = 0x3000 || c.toNat = 0xfeff

/-- ECMAScript regex word character (`\b` boundaries): `[A-Za-z0-9_]`. -/
def isWordChar (c : Char) : Bool :=
  ('a' ≤ c && c ≤ 'z') || ('A' ≤ c && c ≤ 'Z') || ('0' ≤ c && c ≤ '9') || c = '_'

/-- ASCII lower-casing, as performed by case-insensitive (`/i`) matching and
`String.prototype.toLowerCase` on the ASCII letters used by the sources. -/
def lowerAscii (c : Char) : Char :=
  if 'A' ≤ c && c ≤ 'Z' then Char.ofNat (c.toNat + 32) else c

/-- The code-point range `[\u{1F300}-\u{1FAFF}]` used by `normalizeSubject`
(`src/lib/versioning.js` line 33) to strip leading Unicode emoji. -/
def isEmojiChar (c : Char) : Bool :=
  0x1F300 ≤ c.toNat && c.toNat ≤ 0x1FAFF

/-- ECMAScript LineTerminator characters, which `.` in a regex does not match. -/
def isLineTerm (c : Char) : Bool :=
  c = '\n' || c = '\r' || c.toNat = 0x2028 || c.toNat = 0x2029

/-- `String.prototype.trim`: remove leading and trailing JS whitespace. -/
def jsTrimL (cs : List Char) : List Char :=
  ((cs.dropWhile jsWS).reverse.dropWhile jsWS).reverse

/-- `str.split(sep)` for a single-character separator, as used by the sources
with `"."`, `"\n"` and `"\x1f"`.  `"".split(".")` is `[""]`, matching JS. -/
def splitCh (sep : Char) : List Char → List (List Char)
  | [] => [[]]
  | c :: rest =>
    if c = sep then [] :: splitCh sep rest
    else
      match splitCh sep rest with
      | [] => [[c]]
      | h :: t => (c :: h) :: t

/-- The maximal decimal-digit prefix of a list, as a value; `none` when there
is no digit (where `parseInt` would return `NaN`). -/
def digitsVal (r : List Char) : Option Nat :=
  let d := r.takeWhile (fun c => c.isDigit)
  if d = [] then none
  else some (d.foldl (fun a c => a * 10 + (c.toNat - 48)) 0)

/-- `parseInt(seg, 10) || 0` from `bumpVersion` (`src/lib/versioning.js`
line 105): skip leading whitespace, optional sign, maximal digit run; a
segment with no digits gives `NaN`, which `|| 0` turns into `0` (as it does
`-0`, which is the same integer). -/
def jsParseIntOr0 (s : List Char) : Int :=
  match s.dropWhile jsWS with
  | '-' :: r =>
    match digitsVal r with
    | some n => -(n : Int)
    | none => 0
  | '+' :: r => ((digitsVal r).getD 0 : Nat)
  | r => ((digitsVal r).getD 0 : Nat)

/-- The destructured components `[major, minor, patch]` of
`base.split(".").map(n => parseInt(n, 10) || 0)`.  Components beyond the
length of the split are `undefined` in JS, i.e. `none` after `List.get?`. -/
def partsOf (base : String) : List Int :=
  (splitCh '.' base.data).map jsParseIntOr0

/-- Template-literal rendering `${x}` of a destructured component:
a number prints in decimal, a missing (`undefined`) component prints as
`"undefined"`. -/
def jsNumShow (x : Option Int) : String :=
  match x with
  | some n => toString n
  | none => "undefined"

/-- Template-literal rendering `${x + 1}`: adding `1` to `undefined` gives
`NaN`, which prints as `"NaN"`. -/
def jsNumSucc (x : Option Int) : String :=
  match x with
  | some n => toString (n + 1)
  | none => "NaN"

/-- `bumpVersion(base, bump)` from `src/lib/versioning.js` lines 104-110.
The second parameter is optional in the source, hence `Option String`
(`none` models a call with the argument omitted). -/
def bumpVersion (base : String) (bump : Option String) : String :=
  let parts := partsOf base
  let major := parts.get? 0
  let minor := parts.get? 1
  let patch := parts.get? 2
  if bump = some "major" then jsNumSucc major ++ ".0.0"
  else if bump = some "minor" then jsNumShow major ++ "." ++ jsNumSucc minor ++ ".0"
  else jsNumShow major ++ "." ++ jsNumShow minor ++ "." ++ jsNumSucc patch

/-- The bump signal produced by `detectBumpType`:
`"major" | "minor" | "patch" | "none"`. -/
inductive BumpType where
  | none
  | patch
  | minor
  | major
deriving DecidableEq, Repr, Fintype

/-- Position of a signal in the total order `none < patch < minor < major`. -/
def rank : BumpType → Nat
  | .none => 0
  | .patch => 1
  | .minor => 2
  | .major => 3

/-- Maximum of two signals under the order `none < patch < minor < major`. -/
def bumpMax (a b : BumpType) : BumpType :=
  if rank a ≤ rank b then b else a

/-- Maximum of a finite sequence of signals (`none` for the empty sequence). -/
def resolveMax (l : List BumpType) : BumpType :=
  l.foldr bumpMax .none

/-- The JS value of the `bump` accumulator read as a signal
(`null` reads as `none`). -/
def sigOf (b : Option BumpType) : BumpType := b.getD .none

/-- The resolver loop of `computeVersion` (`src/bin/create-tag.js` lines
207-218): fold over the classified commits, starting from `bump = null`,
breaking out as soon as a `major` is seen, upgrading to `minor` unless
already `major`, and taking `patch` only when no signal was kept yet. -/
def resolveLoop (b : Option BumpType) : List BumpType → Option BumpType
  | [] => b
  | t :: rest =>
    if t = .major then some .major
    else
      let b1 := if t = .minor ∧ b ≠ some .major then some .minor else b
      let b2 := if t = .patch ∧ b1 = none then some .patch else b1
      resolveLoop b2 rest

/-- A commit record, as produced by `parseCommit` (`src/lib/git.js`
lines 70-73). -/
structure Commit where
  hash : String
  subject : String
  body : String
deriving DecidableEq, Repr

/-- Index of the last `':'` in a list, if any. -/
def lastColonIdx : List Char → Option Nat
  | [] => none
  | c :: r =>
    match lastColonIdx r with
    | some j => some (j + 1)
    | none => if c = ':' then some 0 else none

/-- `subject.replace(/^:\S+:\s*/, "")` (`src/lib/versioning.js` line 31).
The anchored match requires a leading `':'`, then a nonempty greedy run of
non-whitespace ending at a `':'` (greediness picks the last `':'` inside the
leading non-whitespace run, so `":a::b: x"` loses the whole block), then
optional whitespace.  On no match the string is unchanged. -/
def stripShortcodeL (cs : List Char) : List Char :=
  match cs with
  | [] => []
  | ch :: rest =>
    if ch = ':' then
      let run := rest.takeWhile (fun c => !jsWS c)
      match lastColonIdx run with
      | some j => if 1 ≤ j then (rest.drop (j + 1)).dropWhile jsWS else ch :: rest
      | none => ch :: rest
    else ch :: rest

/-- `.replace(/^[\u{1F300}-\u{1FAFF}]+\s*/u, "")` (`src/lib/versioning.js`
line 33): strip a nonempty leading run of emoji code points plus optional
whitespace. -/
def stripEmojiL (cs : List Char) : List Char :=
  let e := cs.takeWhile isEmojiChar
  if e.isEmpty then cs else (cs.drop e.length).dropWhile jsWS

/-- `normalizeSubject` from `src/lib/versioning.js` lines 28-35:
shortcode strip, then emoji strip, then trim. -/
def normalizeSubject (s : String) : String :=
  String.mk (jsTrimL (stripEmojiL (stripShortcodeL s.data)))

/-- `/^revert\b/i.test(clean)` (`src/lib/versioning.js` line 57): the
subject starts with `revert` case-insensitively, followed by a word
boundary (end of string or a non-word character). -/
def startsRevert (cs : List Char) : Bool :=
  ((cs.take 6).map lowerAscii == "revert".data) &&
  (match cs.drop 6 with
   | [] => true
   | ch :: _ => !isWordChar ch)

/-- The alternation of commit types in `COMMIT_RE`
(`src/lib/versioning.js` lines 5-6), in source order.  No alternative is a
prefix of another, so at most one can match a given subject. -/
def commitTypes : List (List Char) :=
  ["feat".data, "fix".data, "refactor".data, "docs".data, "chore".data,
   "style".data, "test".data, "build".data, "perf".data, "ci".data,
   "cleanup".data, "remove".data]

/-- No ECMAScript line terminator in the list (`.` in a regex cannot match
one). -/
def noTermAll (cs : List Char) : Bool := cs.all (fun ch => !isLineTerm ch)

/-- Match of the tail pattern `(!)?:` of `COMMIT_RE`: returns the presence
of the `!` capture when the pattern matches. -/
def bangColon : List Char → Option Bool
  | '!' :: ':' :: _ => some true
  | ':' :: _ => some false
  | _ => none

/-- Candidate positions for the closing `')'` of the scope group
`(\(.+\))?`, largest first (the regex engine tries the greedy, longest
`.+` first and backtracks). -/
def parenCands (r : List Char) : List Nat :=
  ((List.range r.length).filter (fun i => decide (1 ≤ i) && (r.get? i == some ')'))).reverse

/-- Backtracking match of `.+\))` followed by `(!)?:` after an opening
`'('`: the greedy engine commits to the largest closing position whose
nonempty, line-terminator-free interior lets the rest of the pattern
match. -/
def greedyParen (r : List Char) : Option Bool :=
  (parenCands r).findSome? (fun i =>
    if noTermAll (r.take i) then bangColon (r.drop (i + 1)) else none)

/-- Match of `(\(.+\))?(!)?:` after the commit type: first try the scope
group (greedy), else skip it. -/
def matchAfterType (rest : List Char) : Option Bool :=
  match rest with
  | '(' :: r =>
    match greedyParen r with
    | some b => some b
    | none => bangColon rest
  | _ => bangColon rest

/-- Result of `clean.match(COMMIT_RE)`: the matched type (group 1, original
casing) and whether group 3 (`!`) matched. -/
structure HeaderMatch where
  htype : List Char
  bang : Bool
deriving DecidableEq, Repr

/-- `clean.match(COMMIT_RE)` for
`/^(feat|...|remove)(\(.+\))?(!)?:/i` (`src/lib/versioning.js` lines 5-6):
find the alternative matching case-insensitively at the start, then match
the optional scope group, optional `!`, and the terminating `':'`. -/
def commitMatch (cs : List Char) : Option HeaderMatch :=
  commitTypes.findSome? (fun t =>
    if (cs.take t.length).map lowerAscii = t then
      (matchAfterType (cs.drop t.length)).map (fun b => ⟨cs.take t.length, b⟩)
    else none)

/-- `pat` occurs as a contiguous sublist of the second argument. -/
def containsSub (pat : List Char) : List Char → Bool
  | [] => pat.isPrefixOf ([] : List Char)
  | ch :: tl => pat.isPrefixOf (ch :: tl) || containsSub pat tl

/-- `/BREAKING CHANGE/i.test(body)` (`src/lib/versioning.js` line 62). -/
def hasBreakingBody (cs : List Char) : Bool :=
  containsSub "breaking change".data (cs.map lowerAscii)

/-- `detectBumpType({subject, body})` from `src/lib/versioning.js`
lines 53-72: normalize the subject, suppress reverts, detect breaking
changes (body phrase or `!` marker), then map `feat → minor`,
`fix → patch`, anything else → `none`. -/
def detectBumpType (c : Commit) : BumpType :=
  let clean := (normalizeSubject c.subject).data
  if startsRevert clean then .none
  else
    let m := commitMatch clean
    let breaking := hasBreakingBody c.body.data ||
      (match m with
       | some hm => hm.bang
       | none => false)
    if breaking then .major
    else
      match m with
      | none => .none
      | some hm =>
        let ty := hm.htype.map lowerAscii
        if ty = "feat".data then .minor
        else if ty = "fix".data then .patch
        else .none

/-- Outcome of reading and parsing `<cwd>/package.json`, the input state of
`readPackageVersion` (`src/lib/utils.js` lines 36-45):
`unreadableOrInvalid` — `fs.readFileSync` or `JSON.parse` throws;
`parsedNull` — the file parses to `null`, so the `.version` access throws;
`parsedWithVersion v` — the manifest parses and carries the string `v` in
its `version` field; `parsedNoVersion` — the manifest parses to a value
without a `version` field, so the access yields `undefined`. -/
inductive ManifestState where
  | unreadableOrInvalid
  | parsedNull
  | parsedWithVersion (v : String)
  | parsedNoVersion
deriving DecidableEq, Repr

/-- `readPackageVersion(cwd)` from `src/lib/utils.js` lines 36-45: the
`try` block returns `pkg.version`; any throw inside it (unreadable file,
invalid JSON, property access on `null`) is caught and yields `"0.0.0"`.
A manifest that parses but lacks a `version` field throws nothing and the
function returns `undefined` (`none`). -/
def readPackageVersion : ManifestState → Option String
  | .unreadableOrInvalid => some "0.0.0"
  | .parsedNull => some "0.0.0"
  | .parsedWithVersion v => some v
  | .parsedNoVersion => none

/-- `tag.replace(/^v/, "")`: strip one leading `'v'` (case-sensitive). -/
def stripLeadV (s : String) : String :=
  match s.data with
  | 'v' :: r => String.mk r
  | _ => s

/-- `getLastTag(cwd)` from `src/lib/git.js` lines 17-24, over the trimmed
stdout of `git describe --tags --abbrev=0` (`none` when the command
throws): strip a leading `v`, or return `null`. -/
def getLastTag (describeOut : Option String) : Option String :=
  describeOut.map stripLeadV

/-- `getCommits(range, cwd)` from `src/lib/git.js` lines 47-58, over the
raw stdout of `git log <range> --pretty=format:%H%x1f%s%x1f%b` (`none`
when the command throws, giving `[]`): `run` trims the output, which is
then split on newlines with empty lines dropped (`filter(Boolean)`). -/
def getCommits (logOut : Option String) : List String :=
  match logOut with
  | none => []
  | some out => ((splitCh '\n' (jsTrimL out.data)).filter (fun l => l ≠ [])).map String.mk

/-- `parseCommit(line)` from `src/lib/git.js` lines 70-73: split on the
unit separator `\x1f`; missing `subject`/`body` fields default to `""`
(destructuring defaults); extra fields are ignored. -/
def parseCommit (line : String) : Commit :=
  let ps := splitCh '\x1f' line.data
  { hash := String.mk (ps.headD [])
    subject := String.mk ((ps.get? 1).getD [])
    body := String.mk ((ps.get? 2).getD []) }

/-- The git-log range queried by `computeVersion`
(`src/bin/create-tag.js` line 195): `` `${lastTag}..HEAD` `` when
`lastTag` is truthy, else `"HEAD"` (the empty string is falsy in JS). -/
def queryRange (lastTag : Option String) : String :=
  match lastTag with
  | some t => if t = "" then "HEAD" else t ++ "..HEAD"
  | none => "HEAD"

/-- The external collaborators consumed by `computeVersion`:
the trimmed stdout of `git describe` (or `none` if it threw), the state of
`package.json`, and the raw stdout of `git log` per queried range (or
`none` if it threw). -/
structure Env where
  describeTag : Option String
  manifest : ManifestState
  gitLog : String → Option String

/-- The `reason` codes of the no-release cases of `computeVersion`. -/
inductive NoReleaseReason where
  | noCommits
  | noBumpDetected
deriving DecidableEq, Repr

/-- The object returned by `computeVersion` (`src/bin/create-tag.js`
lines 190-236).  Fields that a branch does not set are `none`
(`undefined`); `baseVersion` is `Option` because it is `undefined` when
there is no tag and the manifest has no `version` field. -/
structure ComputeResult where
  hasRelease : Bool
  reason : Option NoReleaseReason
  baseVersion : Option String
  commitsAnalyzed : Nat
  nextVersion : Option String
  bump : Option BumpType
deriving DecidableEq, Repr

/-- The string value of a bump signal, as assigned to the `bump` variable
of the resolver loop (`.none` is never assigned there). -/
def bumpName : BumpType → String
  | .none => "none"
  | .patch => "patch"
  | .minor => "minor"
  | .major => "major"

/-- `computeVersion({cwd})` from `src/bin/create-tag.js` lines 190-236.
`none` models the one way the function can throw: calling
`bumpVersion(baseVersion, bump)` when `baseVersion` is `undefined`
(`undefined.split` raises a `TypeError`).  The source computes
`detectBumpType` inside the loop; folding `resolveLoop` over the mapped
list is the same computation. -/
def computeVersion (env : Env) : Option ComputeResult :=
  let pkgVersion := readPackageVersion env.manifest
  let lastTag := getLastTag env.describeTag
  let baseVersion := match lastTag with
    | some t => some t
    | none => pkgVersion
  let range := queryRange lastTag
  let commits := (getCommits (env.gitLog range)).map parseCommit
  if commits.length = 0 then
    some { hasRelease := false, reason := some .noCommits, baseVersion := baseVersion,
           commitsAnalyzed := 0, nextVersion := none, bump := none }
  else
    match resolveLoop none (commits.map detectBumpType) with
    | none =>
      some { hasRelease := false, reason := some .noBumpDetected, baseVersion := baseVersion,
             commitsAnalyzed := commits.length, nextVersion := none, bump := none }
    | some b =>
      match baseVersion with
      | some bv =>
        some { hasRelease := true, reason := none, baseVersion := some bv,
               commitsAnalyzed := commits.length,
               nextVersion := some (bumpVersion bv (some (bumpName b))), bump := some b }
      | none => none

/-- Observable behaviour of one run of the CLI `main`: the lines written
to each stream and the process exit code. -/
structure MainOutput where
  stdoutLines : List String
  stderrLines : List String
  exitCode : Nat
deriving DecidableEq, Repr

/-- Template-literal rendering of a possibly-`undefined` string value. -/
def jsShowOptStr (s : Option String) : String :=
  match s with
  | some v => v
  | none => "undefined"

/-- Template-literal rendering of `result.reason`. -/
def reasonStr : Option NoReleaseReason → String
  | some .noCommits => "no-commits"
  | some .noBumpDetected => "no-bump-detected"
  | none => "undefined"

/-- The stderr line of the no-release branch of `main`
(`src/bin/create-tag.js` lines 300-303). -/
def noReleaseMsg (r : ComputeResult) : String :=
  "No release generated (" ++ reasonStr r.reason ++ "). Base version: "
    ++ jsShowOptStr r.baseVersion

/-- `main()` from `src/bin/create-tag.js` lines 291-310 in non-JSON mode
(without `--json` the printing branch on `flags.json` is not taken; the
flags do not affect the exit-code cascade).  Prints, then exits on the
first matching case: release → 0, `no-bump-detected` → 10,
`no-commits` → 2, anything else → 1. -/
def mainModel (r : ComputeResult) : MainOutput :=
  let out := if r.hasRelease then [jsShowOptStr r.nextVersion] else []
  let err := if r.hasRelease then [] else [noReleaseMsg r]
  let code :=
    if r.hasRelease then 0
    else if r.reason = some .noBumpDetected then 10
    else if r.reason = some .noCommits then 2
    else 1
  { stdoutLines := out, stderrLines := err, exitCode := code }

/-- The first character of `c` (if any) is not whitespace, not `':'` and
not in the emoji range: no leading-marker stripping applies to `c`. -/
def headPlain (c : String) : Bool :=
  match c.data with
  | [] => true
  | ch :: _ => !jsWS ch && !(ch == ':') && !isEmojiChar ch

/-- `w` is a nonempty whitespace-free word (the `\S+` of the shortcode
pattern `:\S+:`). -/
def tokenWord (w : String) : Bool :=
  !w.data.isEmpty && w.data.all (fun ch => !jsWS ch)

/-- `e` is a nonempty run of emoji code points. -/
def emojiWord (e : String) : Bool :=
  !e.data.isEmpty && e.data.all isEmojiChar

theorem resolveLoop_eq (l : List BumpType) :
    ∀ b : Option BumpType, b ≠ some .none →
      resolveLoop b l =
        if bumpMax (sigOf b) (resolveMax l) = .none then none
        else some (bumpMax (sigOf b) (resolveMax l)) := by
  induction l with
  | nil =>
    intro b hb
    rcases b with _ | x
    · decide
    · cases x
      · exact absurd rfl hb
      all_goals decide
  | cons t rest ih =>
    intro b hb
    have hm : resolveMax (t :: rest) = bumpMax t (resolveMax rest) := rfl
    rcases b with _ | x
    · cases t with
      | none =>
        rw [show resolveLoop none (BumpType.none :: rest) = resolveLoop none rest from rfl,
          ih none (by decide), hm]
        generalize resolveMax rest = M
        revert M; decide
      | patch =>
        rw [show resolveLoop none (BumpType.patch :: rest)
            = resolveLoop (some .patch) rest from rfl,
          ih (some .patch) (by decide), hm]
        generalize resolveMax rest = M
        revert M; decide
      | minor =>
        rw [show resolveLoop none (BumpType.minor :: rest)
            = resolveLoop (some .minor) rest from rfl,
          ih (some .minor) (by decide), hm]
        generalize resolveMax rest = M
        revert M; decide
      | major =>
        rw [show resolveLoop none (BumpType.major :: rest) = some .major from rfl, hm]
        generalize resolveMax rest = M
        revert M; decide
    · cases x with
      | none => exact absurd rfl hb
      | patch =>
        cases t with
        | none =>
          rw [show resolveLoop (some .patch) (BumpType.none :: rest)
              = resolveLoop (some .patch) rest from rfl,
            ih (some .patch) (by decide), hm]
          generalize resolveMax rest = M
          revert M; decide
        | patch =>
          rw [show resolveLoop (some .patch) (BumpType.patch :: rest)
              = resolveLoop (some .patch) rest from rfl,
            ih (some .patch) (by decide), hm]
          generalize resolveMax rest = M
          revert M; decide
        | minor =>
          rw [show resolveLoop (some .patch) (BumpType.minor :: rest)
              = resolveLoop (some .minor) rest from rfl,
            ih (some .minor) (by decide), hm]
          generalize resolveMax rest = M
          revert M; decide
        | major =>
          rw [show resolveLoop (some .patch) (BumpType.major :: rest) = some .major from rfl, hm]
          generalize resolveMax rest = M
          revert M; decide
      | minor =>
        cases t with
        | none =>
          rw [show resolveLoop (some .minor) (BumpType.none :: rest)
              = resolveLoop (some .minor) rest from rfl,
            ih (some .minor) (by decide), hm]
          generalize resolveMax rest = M
          revert M; decide
        | patch =>
          rw [show resolveLoop (some .minor) (BumpType.patch :: rest)
              = resolveLoop (some .minor) rest from rfl,
            ih (some .minor) (by decide), hm]
          generalize resolveMax rest = M
          revert M; decide
        | minor =>
          rw [show resolveLoop (some .minor) (BumpType.minor :: rest)
              = resolveLoop (some .minor) rest from rfl,
            ih (some .minor) (by decide), hm]
          generalize resolveMax rest = M
          revert M; decide
        | major =>
          rw [show resolveLoop (some .minor) (BumpType.major :: rest) = some .major from rfl, hm]
          generalize resolveMax rest = M
          revert M; decide
      | major =>
        cases t with
        | none =>
          rw [show resolveLoop (some .major) (BumpType.none :: rest)
              = resolveLoop (some .major) rest from rfl,
            ih (some .major) (by decide), hm]
          generalize resolveMax rest = M
          revert M; decide
        | patch =>
          rw [show resolveLoop (some .major) (BumpType.patch :: rest)
              = resolveLoop (some .major) rest from rfl,
            ih (some .major) (by decide), hm]
          generalize resolveMax rest = M
          revert M; decide
        | minor =>
          rw [show resolveLoop (some .major) (BumpType.minor :: rest)
              = resolveLoop (some .major) rest from rfl,
            ih (some .major) (by decide), hm]
          generalize resolveMax rest = M
          revert M; decide
        | major =>
          rw [show resolveLoop (some .major) (BumpType.major :: rest) = some .major from rfl, hm]
          generalize resolveMax rest = M
          revert M; decide

theorem resolveMax_perm {l l' : List BumpType} (h : l.Perm l') :
    resolveMax l = resolveMax l' := by
  induction h with
  | nil => rfl
  | @cons x l₁ l₂ _ ih =>
    show bumpMax x (resolveMax l₁) = bumpMax x (resolveMax l₂)
    rw [ih]
  | swap x y l =>
    show bumpMax y (bumpMax x (resolveMax l)) = bumpMax x (bumpMax y (resolveMax l))
    generalize resolveMax l = M
    revert x y M; decide
  | trans _ _ ih1 ih2 => exact ih1.trans ih2

theorem resolveMax_all_none {l : List BumpType} (h : ∀ x ∈ l, x = .none) :
    resolveMax l = .none := by
  induction l with
  | nil => rfl
  | cons a t ih =>
    have ha : a = .none := h a (by simp)
    have ht : resolveMax t = .none := ih (fun x hx => h x (by simp [hx]))
    show bumpMax a (resolveMax t) = .none
    rw [ha, ht]
    decide

theorem resolveMax_eq_none_iff (l : List BumpType) :
    resolveMax l = .none ↔ ∀ x ∈ l, x = .none := by
  constructor
  · induction l with
    | nil =>
      intro _ x hx
      cases hx
    | cons a t ih =>
      intro h x hx
      have hsplit : a = .none ∧ resolveMax t = .none := by
        have hmm : ∀ u v : BumpType, bumpMax u v = .none → u = .none ∧ v = .none := by decide
        exact hmm a (resolveMax t) h
      rcases List.mem_cons.mp hx with rfl | hx
      · exact hsplit.1
      · exact ih hsplit.2 x hx
  · exact resolveMax_all_none

theorem resolveLoop_none_eq (l : List BumpType) :
    resolveLoop none l =
      if resolveMax l = BumpType.none then none else some (resolveMax l) := by
  rw [resolveLoop_eq l none (by decide)]
  have hb : ∀ X : BumpType, bumpMax (sigOf none) X = X := by decide
  simp only [hb]

theorem resolveLoop_none_iff (l : List BumpType) :
    resolveLoop none l = none ↔ ∀ x ∈ l, x = .none := by
  rw [resolveLoop_none_eq l]
  constructor
  · intro h
    by_cases hm : resolveMax l = .none
    · exact (resolveMax_eq_none_iff l).mp hm
    · rw [if_neg hm] at h
      cases h
  · intro h
    rw [if_pos ((resolveMax_eq_none_iff l).mpr h)]

example : detectBumpType ⟨"", "feat: add x", ""⟩ = .minor := by decide
example : detectBumpType ⟨"", "fix: y", ""⟩ = .patch := by decide
example : detectBumpType ⟨"", "chore: z", ""⟩ = .none := by decide
example : detectBumpType ⟨"", "feat!: x", ""⟩ = .major := by decide
example : detectBumpType ⟨"", "feat(api)!: x", ""⟩ = .major := by decide
example : detectBumpType ⟨"", "FIX(scope): y", ""⟩ = .patch := by decide
example : detectBumpType ⟨"", "fix: x", "BREAKING CHANGE: y"⟩ = .major := by decide
example : detectBumpType ⟨"", "whatever", "breaking change ahead"⟩ = .major := by decide
example : detectBumpType ⟨"", "revert: feat: add thing", ""⟩ = .none := by decide
example : detectBumpType ⟨"", "Revert \"feat: x\"", "BREAKING CHANGE: y"⟩ = .none := by decide
example : detectBumpType ⟨"", "reverted: fix: x", ""⟩ = .none := by decide
example : detectBumpType ⟨"", ":sparkles: feat: add x", ""⟩ = .minor := by decide
example : detectBumpType ⟨"", "🚀 feat: add x", ""⟩ = .minor := by decide
example : detectBumpType ⟨"", "🚀✨  Deploy", ""⟩ = .none := by decide
example : detectBumpType ⟨"", ":a::b: fix: y", ""⟩ = .patch := by decide
example : detectBumpType ⟨"", "cirrus: x", ""⟩ = .none := by decide
example : normalizeSubject ":a::b:Multiple emojis at start" = "Multiple emojis at start" := by decide

example :
    computeVersion ⟨some "v1.4.2", .parsedWithVersion "9.9.9", fun _ => none⟩ =
      some ⟨false, some .noCommits, some "1.4.2", 0, none, none⟩ := by decide

example :
    computeVersion ⟨some "v1.4.2", .unreadableOrInvalid,
        fun r => if r = "1.4.2..HEAD" then some "h1\x1ffeat: a\x1f\nh2\x1ffix: b\x1f\nh3\x1fchore: c\x1f" else none⟩ =
      some ⟨true, none, some "1.4.2", 3, some "1.5.0", some .minor⟩ := by decide

example :
    computeVersion ⟨none, .parsedWithVersion "1.4.2",
        fun r => if r = "HEAD" then some "h1\x1fchore: a\x1f\nh2\x1fdocs: b\x1f" else none⟩ =
      some ⟨false, some .noBumpDetected, some "1.4.2", 2, none, none⟩ := by decide

example :
    computeVersion ⟨none, .parsedNoVersion, fun _ => none⟩ =
      some ⟨false, some .noCommits, none, 0, none, none⟩ := by decide

example :
    computeVersion ⟨none, .parsedNoVersion, fun _ => some "h1\x1ffeat: a\x1f"⟩ = none := by decide

example :
    mainModel ⟨true, none, some "1.4.2", 3, some "1.5.0", some .minor⟩ =
      ⟨["1.5.0"], [], 0⟩ := by decide

example :
    mainModel ⟨false, some .noBumpDetected, some "1.4.2", 2, none, none⟩ =
      ⟨[], ["No release generated (no-bump-detected). Base version: 1.4.2"], 10⟩ := by decide

theorem toString_intCast (k : ℕ) : toString ((k : ℤ)) = toString k := rfl

theorem partsOf_get0 {base : String} {x y z : ℤ} (h : partsOf base = [x, y, z]) :
    (partsOf base).get? 0 = some x := by rw [h]; rfl

theorem partsOf_get1 {base : String} {x y z : ℤ} (h : partsOf base = [x, y, z]) :
    (partsOf base).get? 1 = some y := by rw [h]; rfl

theorem partsOf_get2 {base : String} {x y z : ℤ} (h : partsOf base = [x, y, z]) :
    (partsOf base).get? 2 = some z := by rw [h]; rfl

theorem bump_major_parts {base : String} {M m p : ℕ}
    (h : partsOf base = [(M : ℤ), (m : ℤ), (p : ℤ)]) :
    bumpVersion base (some "major") = toString (M + 1) ++ ".0.0" := by
  have hc : ((M : ℤ) + 1) = ((M + 1 : ℕ) : ℤ) := by omega
  simp only [bumpVersion, partsOf_get0 h, eq_self_iff_true, if_true, jsNumSucc, hc,
    toString_intCast]

theorem bump_minor_parts {base : String} {M m p : ℕ}
    (h : partsOf base = [(M : ℤ), (m : ℤ), (p : ℤ)]) :
    bumpVersion base (some "minor") = toString M ++ "." ++ toString (m + 1) ++ ".0" := by
  have hc : ((m : ℤ) + 1) = ((m + 1 : ℕ) : ℤ) := by omega
  have hne : ¬ ((some "minor" : Option String) = some "major") := by decide
  simp only [bumpVersion, partsOf_get0 h, partsOf_get1 h, if_neg hne, eq_self_iff_true,
    if_true, jsNumShow, jsNumSucc, hc, toString_intCast]

theorem bump_patch_parts {base : String} {M m p : ℕ}
    (h : partsOf base = [(M : ℤ), (m : ℤ), (p : ℤ)]) :
    bumpVersion base (some "patch") =
      toString M ++ "." ++ toString m ++ "." ++ toString (p + 1) := by
  have hc : ((p : ℤ) + 1) = ((p + 1 : ℕ) : ℤ) := by omega
  have hne1 : ¬ ((some "patch" : Option String) = some "major") := by decide
  have hne2 : ¬ ((some "patch" : Option String) = some "minor") := by decide
  simp only [bumpVersion, partsOf_get0 h, partsOf_get1 h, partsOf_get2 h,
    if_neg hne1, if_neg hne2, jsNumShow, jsNumSucc, hc, toString_intCast]

/-- C6: for a base version whose three dot-components parse as the naturals
`M`, `m`, `p`, `bumpVersion` returns `(M+1).0.0` for a major bump,
`M.(m+1).0` for a minor bump and `M.m.(p+1)` for a patch bump. -/
theorem bumpVersion_arithmetic (base : String) (M m p : ℕ)
    (h : partsOf base = [(M : ℤ), (m : ℤ), (p : ℤ)]) :
    bumpVersion base (some "major") = toString (M + 1) ++ ".0.0" ∧
    bumpVersion base (some "minor") = toString M ++ "." ++ toString (m + 1) ++ ".0" ∧
    bumpVersion base (some "patch") =
      toString M ++ "." ++ toString m ++ "." ++ toString (p + 1) :=
  ⟨bump_major_parts h, bump_minor_parts h, bump_patch_parts h⟩

/-- Witness for C6 at the spec's example `1.2.3`. -/
theorem bumpVersion_arithmetic_witness :
    bumpVersion "1.2.3" (some "major") = "2.0.0" ∧
    bumpVersion "1.2.3" (some "minor") = "1.3.0" ∧
    bumpVersion "1.2.3" (some "patch") = "1.2.4" := by
  have h := bumpVersion_arithmetic "1.2.3" 1 2 3 (by decide)
  refine ⟨?_, ?_, ?_⟩
  · rw [h.1]; decide
  · rw [h.2.1]; decide
  · rw [h.2.2]; decide

/-- C10: any bump argument other than `"major"` and `"minor"` — including
`"patch"`, `"none"`, arbitrary strings, or an omitted argument — takes the
patch branch: the third component is incremented and the first two kept.
`bumpVersion` is a total function: no bump-kind input is rejected. -/
theorem bumpVersion_default_patch (base : String) (ob : Option String)
    (h1 : ob ≠ some "major") (h2 : ob ≠ some "minor") :
    bumpVersion base ob = bumpVersion base (some "patch") ∧
    (∀ M m p : ℕ, partsOf base = [(M : ℤ), (m : ℤ), (p : ℤ)] →
      bumpVersion base ob =
        toString M ++ "." ++ toString m ++ "." ++ toString (p + 1)) := by
  have hb : bumpVersion base ob = bumpVersion base (some "patch") := by
    have hne1 : ¬ ((some "patch" : Option String) = some "major") := by decide
    have hne2 : ¬ ((some "patch" : Option String) = some "minor") := by decide
    simp only [bumpVersion, if_neg h1, if_neg h2, if_neg hne1, if_neg hne2]
  exact ⟨hb, fun M m p h => hb.trans (bump_patch_parts h)⟩

/-- Witness for C10: the omitted argument and the strings `"none"` and
`"banana"` all perform a patch bump. -/
theorem bumpVersion_default_patch_witness :
    bumpVersion "1.2.3" none = bumpVersion "1.2.3" (some "patch") ∧
    bumpVersion "1.2.3" (some "none") = bumpVersion "1.2.3" (some "patch") ∧
    bumpVersion "1.2.3" (some "banana") = "1.2.4" := by
  refine ⟨(bumpVersion_default_patch "1.2.3" none (by decide) (by decide)).1,
    (bumpVersion_default_patch "1.2.3" (some "none") (by decide) (by decide)).1, ?_⟩
  have h := (bumpVersion_default_patch "1.2.3" (some "banana") (by decide) (by decide)).2
    1 2 3 (by decide)
  rw [h]; decide

/-- C1: version parsing is NOT lenient for absent components.  A missing
component is `undefined` after destructuring, so bumping the one-component
string `"1"` by patch yields `"1.undefined.NaN"` (not `"1.0.1"`) and by
minor yields `"1.NaN.0"` (not `"1.1.0"`); only non-numeric components that
are present parse as `0` (`"a.b.c"` works as claimed).  This contradicts
the function's own JSDoc examples (`src/lib/versioning.js` lines 100-102). -/
theorem bumpVersion_absent_components_bug :
    bumpVersion "1" (some "patch") = "1.undefined.NaN" ∧
    bumpVersion "1" (some "patch") ≠ "1.0.1" ∧
    bumpVersion "1" (some "minor") = "1.NaN.0" ∧
    bumpVersion "1" (some "minor") ≠ "1.1.0" ∧
    bumpVersion "a.b.c" (some "minor") = "0.1.0" := by
  refine ⟨by decide, by decide, by decide, by decide, by decide⟩

/-- C7: `readPackageVersion` returns `undefined` (not `"0.0.0"`) when the
manifest parses but has no `version` field; the default only covers cases
where the `try` block throws.  This contradicts the function's own doc
comment (`src/lib/utils.js` lines 25-27). -/
theorem readPackageVersion_missing_field_bug :
    readPackageVersion .parsedNoVersion = none ∧
    readPackageVersion .unreadableOrInvalid = some "0.0.0" ∧
    readPackageVersion .parsedNull = some "0.0.0" ∧
    readPackageVersion (.parsedWithVersion "1.2.3") = some "1.2.3" :=
  ⟨rfl, rfl, rfl, rfl⟩

/-- C2: with no tag and a manifest lacking a `version` field,
`computeVersion` returns a result whose `baseVersion` is `undefined` — not
a populated string — and if a bump is detected in that state it throws a
`TypeError` instead of returning at all.  This contradicts the claimed
invariant (and the function's own JSDoc return type). -/
theorem computeVersion_baseVersion_undefined_bug :
    computeVersion ⟨none, .parsedNoVersion, fun _ => none⟩ =
      some ⟨false, some .noCommits, none, 0, none, none⟩ ∧
    computeVersion ⟨none, .parsedNoVersion, fun _ => some "h1\x1ffeat: a\x1f"⟩ = none := by
  exact ⟨by decide, by decide⟩

theorem computeVersion_commitsAnalyzed (env : Env) (res : ComputeResult)
    (h : computeVersion env = some res) :
    res.commitsAnalyzed =
      (getCommits (env.gitLog (queryRange (getLastTag env.describeTag)))).length := by
  unfold computeVersion at h
  dsimp only [] at h
  split at h
  · next hlen =>
    obtain rfl := Option.some.inj h
    simp only [List.length_map] at hlen
    exact hlen.symm
  · split at h
    · obtain rfl := Option.some.inj h
      simp [List.length_map]
    · split at h
      · obtain rfl := Option.some.inj h
        simp [List.length_map]
      · cases h

theorem computeVersion_hasRelease_iff (env : Env) (res : ComputeResult)
    (h : computeVersion env = some res) :
    (res.hasRelease = true ↔
      ∃ c ∈ (getCommits (env.gitLog (queryRange (getLastTag env.describeTag)))).map
          parseCommit, detectBumpType c ≠ BumpType.none) := by
  unfold computeVersion at h
  dsimp only [] at h
  split at h
  · next hlen =>
    obtain rfl := Option.some.inj h
    have : (getCommits (env.gitLog (queryRange (getLastTag env.describeTag)))).map
        parseCommit = [] := List.length_eq_zero.mp hlen
    simp [this]
  · split at h
    · next hres =>
      obtain rfl := Option.some.inj h
      have hall := (resolveLoop_none_iff _).mp hres
      simp only [show (false = true) = False from by simp, false_iff]
      rintro ⟨c, hc, hne⟩
      exact hne (hall (detectBumpType c) (List.mem_map_of_mem detectBumpType hc))
    · rename_i sb hsb
      split at h
      · obtain rfl := Option.some.inj h
        simp only [show (true = true) = True from by simp, true_iff]
        by_contra hnone
        push_neg at hnone
        have hall : ∀ x ∈ (((getCommits (env.gitLog (queryRange
            (getLastTag env.describeTag)))).map parseCommit).map detectBumpType),
            x = BumpType.none := by
          intro x hx
          rcases List.mem_map.mp hx with ⟨c, hc, rfl⟩
          exact hnone c hc
        rw [(resolveLoop_none_iff _).mpr hall] at hsb
        cases hsb
      · cases h

/-- C5: a commit whose cleaned subject starts with the word `revert`
(case-insensitively, at a word boundary) classifies as `none`, whatever
the rest of the subject and body contain. -/
theorem revert_always_none (c : Commit)
    (h : startsRevert (normalizeSubject c.subject).data = true) :
    detectBumpType c = BumpType.none := by
  simp only [detectBumpType, h, if_true]

/-- Witness for C5: a revert with an embedded `feat:` tag and a breaking
body still classifies as `none`. -/
theorem revert_always_none_witness :
    detectBumpType ⟨"", "revert: feat: add thing", "BREAKING CHANGE: x"⟩ = BumpType.none :=
  revert_always_none ⟨"", "revert: feat: add thing", "BREAKING CHANGE: x"⟩ (by decide)

/-- C4: for a non-revert commit, a `BREAKING CHANGE` phrase in the body or
a matched header with a trailing `!` forces `major`, overriding the
type-to-signal mapping; the body-based check needs no header match at all. -/
theorem breaking_forces_major (c : Commit)
    (hrev : startsRevert (normalizeSubject c.subject).data = false)
    (hbrk : hasBreakingBody c.body.data = true ∨
      ∃ hm, commitMatch (normalizeSubject c.subject).data = some hm ∧ hm.bang = true) :
    detectBumpType c = BumpType.major := by
  rcases hbrk with h | ⟨hm, he, hb⟩
  · simp only [detectBumpType, hrev, h, Bool.false_eq_true, if_false, Bool.true_or, if_true]
  · simp only [detectBumpType, hrev, he, hb, Bool.false_eq_true, if_false, Bool.or_true, if_true]

/-- Witness for C4 at the spec's example: subject `fix: x` with body
`BREAKING CHANGE: y` is `major`, overriding `fix → patch`. -/
theorem breaking_forces_major_witness :
    detectBumpType ⟨"", "fix: x", "BREAKING CHANGE: y"⟩ = BumpType.major :=
  breaking_forces_major ⟨"", "fix: x", "BREAKING CHANGE: y"⟩ (by decide)
    (Or.inl (by decide))

/-- C3: the resolver fold returns exactly the maximum of the signal
sequence under `none < patch < minor < major` (`null` when that maximum is
`none`, hence for the empty and all-`none` sequences), and is invariant
under every permutation of the sequence. -/
theorem resolver_is_max_and_perm_invariant :
    (∀ l : List BumpType,
      resolveLoop none l =
        if resolveMax l = BumpType.none then none else some (resolveMax l)) ∧
    (∀ l l' : List BumpType, l.Perm l' → resolveLoop none l = resolveLoop none l') ∧
    (resolveLoop none ([] : List BumpType) = none) ∧
    (∀ l : List BumpType, (∀ x ∈ l, x = BumpType.none) → resolveLoop none l = none) := by
  have hnone : ∀ X : BumpType, bumpMax (sigOf none) X = X := by decide
  have h1 : ∀ l : List BumpType,
      resolveLoop none l =
        if resolveMax l = BumpType.none then none else some (resolveMax l) := by
    intro l
    rw [resolveLoop_eq l none (by decide)]
    simp only [hnone]
  refine ⟨h1, ?_, rfl, ?_⟩
  · intro l l' hp
    rw [h1 l, h1 l', resolveMax_perm hp]
  · intro l hl
    rw [h1 l, resolveMax_all_none hl]
    rfl

/-- Witness for C3: the spec's `[feat, fix, chore]` example — the signal
lists `[minor, patch, none]` and `[none, patch, minor]` are permutations,
resolve identically, and resolve to `minor`. -/
theorem resolver_is_max_witness :
    resolveLoop none [BumpType.minor, BumpType.patch, BumpType.none] =
      resolveLoop none [BumpType.none, BumpType.patch, BumpType.minor] ∧
    resolveLoop none [BumpType.minor, BumpType.patch, BumpType.none] =
      some BumpType.minor := by
  constructor
  · exact resolver_is_max_and_perm_invariant.2.1 _ _ (by decide)
  · rw [resolver_is_max_and_perm_invariant.1
      [BumpType.minor, BumpType.patch, BumpType.none]]
    decide

/-- C9: the CLI `main` maps a `ComputeResult` to output and exit code:
release → `nextVersion` alone on stdout, exit `0`; `no-bump-detected` →
reason and base version on stderr, exit `10`; `no-commits` → reason and
base version on stderr, exit `2`; any other (unexpected) result → exit
`1`.  Moreover no result `computeVersion` actually returns maps to the
unexpected exit code `1`. -/
theorem main_exit_contract (r : ComputeResult) :
    (r.hasRelease = true → mainModel r = ⟨[jsShowOptStr r.nextVersion], [], 0⟩) ∧
    (r.hasRelease = false → r.reason = some .noBumpDetected →
      mainModel r = ⟨[], [noReleaseMsg r], 10⟩) ∧
    (r.hasRelease = false → r.reason = some .noCommits →
      mainModel r = ⟨[], [noReleaseMsg r], 2⟩) ∧
    (r.hasRelease = false → r.reason ≠ some .noBumpDetected →
      r.reason ≠ some .noCommits → mainModel r = ⟨[], [noReleaseMsg r], 1⟩) ∧
    (∀ env res, computeVersion env = some res → (mainModel res).exitCode ≠ 1) := by
  refine ⟨?_, ?_, ?_, ?_, ?_⟩
  · intro h; simp [mainModel, h]
  · intro h hr; simp [mainModel, h, hr]
  · intro h hr
    have : ¬ (some NoReleaseReason.noCommits = some NoReleaseReason.noBumpDetected) := by decide
    simp [mainModel, h, hr]
  · intro h hr1 hr2; simp [mainModel, h, hr1, hr2]
  · intro env res h
    unfold computeVersion at h
    dsimp only [] at h
    split at h
    · obtain rfl := Option.some.inj h
      simp [mainModel]
    · split at h
      · obtain rfl := Option.some.inj h
        simp [mainModel]
      · split at h
        · obtain rfl := Option.some.inj h
          simp [mainModel]
        · exact absurd h (by simp)

/-- Witness for C9 at a concrete release result, a concrete no-bump result
and a concrete no-commits result. -/
theorem main_exit_contract_witness :
    mainModel ⟨true, none, some "1.2.3", 4, some "1.3.0", some BumpType.minor⟩ =
      ⟨["1.3.0"], [], 0⟩ ∧
    mainModel ⟨false, some .noBumpDetected, some "1.2.3", 4, none, none⟩ =
      ⟨[], ["No release generated (no-bump-detected). Base version: 1.2.3"], 10⟩ ∧
    mainModel ⟨false, some .noCommits, some "1.2.3", 0, none, none⟩ =
      ⟨[], ["No release generated (no-commits). Base version: 1.2.3"], 2⟩ := by
  refine ⟨?_, ?_, ?_⟩
  · exact (main_exit_contract _).1 rfl
  · exact (main_exit_contract _).2.1 rfl rfl
  · exact (main_exit_contract _).2.2.1 rfl rfl

theorem data_append (a b : String) : (a ++ b).data = a.data ++ b.data := rfl

theorem takeWhile_append_all {p : Char → Bool} {xs : List Char} (ys : List Char)
    (h : ∀ x ∈ xs, p x = true) :
    (xs ++ ys).takeWhile p = xs ++ ys.takeWhile p := by
  induction xs with
  | nil => simp
  | cons a l ih =>
    have ha : p a = true := h a (by simp)
    simp [List.takeWhile_cons, ha, ih (fun x hx => h x (by simp [hx]))]

theorem lastColonIdx_append_colon (xs : List Char) :
    lastColonIdx (xs ++ [':']) = some xs.length := by
  induction xs with
  | nil => rfl
  | cons a l ih => simp [lastColonIdx, ih]

theorem shortcode_strip (w c : List Char) (hw : w ≠ [])
    (hwp : ∀ x ∈ w, jsWS x = false) :
    stripShortcodeL (':' :: (w ++ ':' :: ' ' :: c)) = c.dropWhile jsWS := by
  have hrun : (w ++ ':' :: ' ' :: c).takeWhile (fun ch => !jsWS ch) = w ++ [':'] := by
    rw [takeWhile_append_all _ (fun x hx => by simp [hwp x hx])]
    have h1 : (!jsWS ':') = true := by decide
    have h2 : (!jsWS ' ') = false := by decide
    simp [List.takeWhile_cons, h1, h2]
  have hlast : lastColonIdx (w ++ [':']) = some w.length := lastColonIdx_append_colon w
  have hlen : 1 ≤ w.length := List.length_pos.mpr hw
  have hdrop : (w ++ ':' :: ' ' :: c).drop (w.length + 1) = ' ' :: c := by
    have h3 := List.drop_left (w ++ [':']) (' ' :: c)
    simp only [List.length_append, List.length_cons, List.length_nil,
      List.append_assoc, List.cons_append, List.nil_append, Nat.zero_add] at h3
    exact h3
  have hws : jsWS ' ' = true := by decide
  simp only [stripShortcodeL, eq_self_iff_true, if_true, hrun, hlast, hlen, hdrop,
    List.dropWhile_cons, hws]

theorem emoji_strip (e c : List Char) (he : e ≠ [])
    (hep : ∀ x ∈ e, isEmojiChar x = true) :
    stripEmojiL (e ++ ' ' :: c) = c.dropWhile jsWS := by
  have htake : (e ++ ' ' :: c).takeWhile isEmojiChar = e := by
    rw [takeWhile_append_all _ hep]
    have h1 : isEmojiChar ' ' = false := by decide
    simp [List.takeWhile_cons, h1]
  have hemp : e.isEmpty = false := by
    cases e with
    | nil => exact absurd rfl he
    | cons a l => rfl
  have hdrop : (e ++ ' ' :: c).drop e.length = ' ' :: c := List.drop_left e (' ' :: c)
  have hws : jsWS ' ' = true := by decide
  simp only [stripEmojiL, htake, hemp, Bool.false_eq_true, if_false, hdrop,
    List.dropWhile_cons, hws, if_true]

theorem headPlain_cases {c : String} (hc : headPlain c = true) :
    c.data = [] ∨
      ∃ ch tl, c.data = ch :: tl ∧ jsWS ch = false ∧ ch ≠ ':' ∧ isEmojiChar ch = false := by
  unfold headPlain at hc
  cases hd : c.data with
  | nil => exact Or.inl rfl
  | cons ch tl =>
    rw [hd] at hc
    simp only [Bool.and_eq_true, Bool.not_eq_true'] at hc
    refine Or.inr ⟨ch, tl, rfl, hc.1.1, ?_, hc.2⟩
    have := hc.1.2
    simp only [beq_eq_false_iff_ne, ne_eq] at this
    exact this

theorem headPlain_dropWhile {c : String} (hc : headPlain c = true) :
    c.data.dropWhile jsWS = c.data := by
  rcases headPlain_cases hc with h | ⟨ch, tl, h, h1, _, _⟩
  · rw [h]; rfl
  · rw [h]; simp [List.dropWhile_cons, h1]

theorem headPlain_stripShort {c : String} (hc : headPlain c = true) :
    stripShortcodeL c.data = c.data := by
  rcases headPlain_cases hc with h | ⟨ch, tl, h, _, h2, _⟩
  · rw [h]; rfl
  · rw [h]; simp [stripShortcodeL, h2]

theorem headPlain_stripEmoji {c : String} (hc : headPlain c = true) :
    stripEmojiL c.data = c.data := by
  rcases headPlain_cases hc with h | ⟨ch, tl, h, _, _, h3⟩
  · rw [h]; rfl
  · rw [h]
    have ht : (ch :: tl).takeWhile isEmojiChar = [] := by
      simp [List.takeWhile_cons, h3]
    simp [stripEmojiL, ht]

theorem tokenWord_spec {w : String} (h : tokenWord w = true) :
    w.data ≠ [] ∧ ∀ x ∈ w.data, jsWS x = false := by
  unfold tokenWord at h
  simp only [Bool.and_eq_true, Bool.not_eq_true', List.all_eq_true,
    List.isEmpty_iff] at h
  refine ⟨?_, fun x hx => h.2 x hx⟩
  intro hnil
  rw [List.isEmpty_iff.mpr hnil] at h
  exact absurd h.1 (by decide)

theorem emojiWord_spec {e : String} (h : emojiWord e = true) :
    e.data ≠ [] ∧ ∀ x ∈ e.data, isEmojiChar x = true := by
  unfold emojiWord at h
  simp only [Bool.and_eq_true, Bool.not_eq_true', List.all_eq_true] at h
  refine ⟨?_, fun x hx => h.2 x hx⟩
  intro hnil
  rw [List.isEmpty_iff.mpr hnil] at h
  exact absurd h.1 (by decide)

theorem normalize_shortcode {w c : String} (hw : tokenWord w = true)
    (hc : headPlain c = true) :
    normalizeSubject (":" ++ w ++ ": " ++ c) = normalizeSubject c := by
  obtain ⟨hne, hall⟩ := tokenWord_spec hw
  have h1 : (":" : String).data = [':'] := rfl
  have h2 : (": " : String).data = [':', ' '] := rfl
  have hdata : (":" ++ w ++ ": " ++ c).data = ':' :: (w.data ++ ':' :: ' ' :: c.data) := by
    simp [data_append, h1, h2]
  unfold normalizeSubject
  rw [hdata, shortcode_strip w.data c.data hne hall, headPlain_dropWhile hc,
    headPlain_stripShort hc, headPlain_stripEmoji hc]

theorem normalize_emoji {e c : String} (he : emojiWord e = true)
    (hc : headPlain c = true) :
    normalizeSubject (e ++ " " ++ c) = normalizeSubject c := by
  obtain ⟨hne, hall⟩ := emojiWord_spec he
  have h1 : (" " : String).data = [' '] := rfl
  have hdata : (e ++ " " ++ c).data = e.data ++ ' ' :: c.data := by
    simp [data_append, h1]
  have hshort : stripShortcodeL (e.data ++ ' ' :: c.data) = e.data ++ ' ' :: c.data := by
    cases hd : e.data with
    | nil => exact absurd hd hne
    | cons ch tl =>
      have hch : isEmojiChar ch = true := hall ch (by rw [hd]; simp)
      have hcolon : ¬(ch = ':') := by
        intro hh
        rw [hh] at hch
        exact absurd hch (by decide)
      simp [stripShortcodeL, hcolon, List.cons_append]
  unfold normalizeSubject
  rw [hdata, hshort, emoji_strip e.data c.data hne hall, headPlain_dropWhile hc,
    headPlain_stripShort hc, headPlain_stripEmoji hc]

theorem detect_congr {a b : Commit}
    (hs : normalizeSubject a.subject = normalizeSubject b.subject)
    (hb : a.body = b.body) : detectBumpType a = detectBumpType b := by
  simp only [detectBumpType, hs, hb]

/-- C8: classification is invariant under stripping of a single leading
marker block — a shortcode token `:word:` or a run of emoji code points,
plus whitespace — whenever the remaining subject itself starts with plain
text; in particular `":sparkles: feat: add x"` and `"🚀 feat: add x"` both
classify like `"feat: add x"`, namely `minor`. -/
theorem marker_strip_invariant :
    (∀ (w c body hs : String), tokenWord w = true → headPlain c = true →
      detectBumpType ⟨hs, ":" ++ w ++ ": " ++ c, body⟩ = detectBumpType ⟨hs, c, body⟩) ∧
    (∀ (e c body hs : String), emojiWord e = true → headPlain c = true →
      detectBumpType ⟨hs, e ++ " " ++ c, body⟩ = detectBumpType ⟨hs, c, body⟩) ∧
    detectBumpType ⟨"", ":sparkles: feat: add x", ""⟩ = BumpType.minor ∧
    detectBumpType ⟨"", "🚀 feat: add x", ""⟩ = BumpType.minor ∧
    detectBumpType ⟨"", "feat: add x", ""⟩ = BumpType.minor := by
  refine ⟨?_, ?_, by decide, by decide, by decide⟩
  · intro w c body hs hw hc
    exact detect_congr (normalize_shortcode hw hc) rfl
  · intro e c body hs he hc
    exact detect_congr (normalize_emoji he hc) rfl

/-- Witness for C8 at the spec's two examples. -/
theorem marker_strip_invariant_witness :
    detectBumpType ⟨"", ":sparkles: feat: add x", ""⟩ =
      detectBumpType ⟨"", "feat: add x", ""⟩ ∧
    detectBumpType ⟨"", "🚀 feat: add x", ""⟩ =
      detectBumpType ⟨"", "feat: add x", ""⟩ := by
  constructor
  · exact marker_strip_invariant.1 "sparkles" "feat: add x" "" "" (by decide) (by decide)
  · exact marker_strip_invariant.2.1 "🚀" "feat: add x" "" "" (by decide) (by decide)

end ReleaseSuite
